import Mathlib

/-
Verification of the goal-tracker bot's daily-plan pipeline.

The definitions below are a shallow embedding of the JavaScript source:
the task parser, prompt builder, daily-activity store (Postgres upsert
semantics), plan orchestrator, task-toggle callback handler, goal
listing/deletion, and the calendar-date computations.  Machine-level JS
details (regex matching, `String.prototype.trim`, `Array.prototype.join`,
template literals) are modelled character-for-character on `List Char`.
-/

namespace GoalTracker

/-- One structured task element of a DailyActivity record: the
`{ id, text, done }` objects built by the robust-parsing step of
`generateAndSendDailyPlan`. -/
structure Task where
  id : Nat
  text : String
  done : Bool
deriving Repr, DecidableEq

/-- Membership in the JS whitespace class (the regex class `\s` and the
characters `String.prototype.trim` removes), restricted to the ASCII
whitespace characters: space, tab, newline, carriage return, vertical tab,
form feed. -/
def isJsSpace (c : Char) : Bool :=
  c == ' ' || c == '\t' || c == '\n' || c == '\r' || c.toNat == 11 || c.toNat == 12

/-- Model of `text.split('\n')` on the character list: split at every
newline character, keeping empty segments, so the result is always
nonempty. -/
def splitLines : List Char → List (List Char)
  | [] => [[]]
  | '\n' :: rest => [] :: splitLines rest
  | c :: rest =>
    match splitLines rest with
    | [] => [[c]]
    | l :: ls => (c :: l) :: ls

/-- Model of `String.prototype.trim`: drop leading and trailing JS
whitespace. -/
def jsTrim (cs : List Char) : List Char :=
  ((cs.dropWhile isJsSpace).reverse.dropWhile isJsSpace).reverse

/-- The separator class of the parsing regex: a dot, a closing parenthesis,
a colon, or bare whitespace after the leading digits. -/
def isOrdinalSep (c : Char) : Bool :=
  c == '.' || c == ')' || c == ':' || isJsSpace c

/-- Value of `parseInt` on a nonempty string of decimal digits. -/
def digitsVal (ds : List Char) : Nat :=
  ds.foldl (fun n c => 10 * n + (c.toNat - 48)) 0

/-- One line of the robust-parsing loop: remove every asterisk (the
emphasis-markup strip), trim, then match the regex
`leading digits, one separator, optional whitespace, remainder`.
Returns the parsed ordinal and the trimmed remainder text.  Backtracking
on the digit group cannot help (a digit is never a separator), so
maximal-munch `takeWhile` is an exact model of the regex. -/
def matchLine (line : List Char) : Option (Nat × List Char) :=
  let clean := jsTrim (line.filter fun c => c ≠ '*')
  let ds := clean.takeWhile Char.isDigit
  match clean.dropWhile Char.isDigit with
  | [] => none
  | c :: rest =>
    if !ds.isEmpty && isOrdinalSep c then
      some (digitsVal ds, rest.dropWhile isJsSpace)
    else none

/-- The robust-parsing step of `generateAndSendDailyPlan`: split the raw
generated text into lines, apply `matchLine` to each, push a task
`{ id, text, done := false }` for every match and silently drop every
non-matching line. -/
def parseTasks (text : String) : List Task :=
  (splitLines text.data).filterMap fun l =>
    (matchLine l).map fun p => { id := p.1, text := String.mk p.2, done := false }

/-- C3: on the spec's example input the parser yields exactly the three
tasks (1, "Finish report"), (2, "Call client"), (3, "Review notes"), all
unfinished, and drops the trailing motivational line; in general the
parser is the per-line match mapped over the split lines, with every
emitted task having `done = false`, and a zero-task result (never an
error) on text with no matching line. -/
theorem parser_robustness :
    parseTasks "1. Finish report\n2) Call client\n**3:** Review notes\nKeep going!" =
      [⟨1, "Finish report", false⟩, ⟨2, "Call client", false⟩, ⟨3, "Review notes", false⟩] ∧
    (∀ s : String,
      parseTasks s =
        ((splitLines s.data).filterMap matchLine).map fun p =>
          { id := p.1, text := String.mk p.2, done := false }) ∧
    (∀ s : String, (parseTasks s).all fun t => t.done = false) ∧
    parseTasks "Keep going!" = [] := by
  have hmap : ∀ s : String,
      parseTasks s =
        ((splitLines s.data).filterMap matchLine).map fun p =>
          { id := p.1, text := String.mk p.2, done := false } := by
    intro s
    rw [parseTasks, List.map_filterMap]
  refine ⟨by decide, hmap, fun s => ?_, by decide⟩
  rw [hmap]
  apply List.all_eq_true.mpr
  intro t ht
  obtain ⟨p, hp, rfl⟩ := List.mem_map.mp ht
  rfl

/-- Model of `Array.prototype.join(sep)`: interleave the separator between
consecutive elements, empty on the empty array. -/
def joinSep (sep : String) : List String → String
  | [] => ""
  | [x] => x
  | x :: y :: ys => x ++ sep ++ joinSep sep (y :: ys)

/-- The carry-over extraction: `tasks.filter(t => not t.done).map(t => t.text)`
applied to yesterday's stored task list. -/
def unfinishedOf (ts : List Task) : List String :=
  (ts.filter fun t => !t.done).map Task.text

/-- A row of the goals query used by the orchestrator:
description and optional deadline. -/
abbrev GoalRow := String × Option String

/-- One bullet of the goals section of the prompt: the deadline suffix is
present exactly when the goal has a (non-null) deadline. -/
def goalLine (g : GoalRow) : String :=
  match g.2 with
  | some d => "- " ++ g.1 ++ " (Deadline: " ++ d ++ ")"
  | none => "- " ++ g.1

/-- The `goalsText` variable: goal bullets joined by newlines. -/
def goalsText (goals : List GoalRow) : String :=
  joinSep "\n" (goals.map goalLine)

/-- The fixed part of the generation prompt (the template literal of
`generateAndSendDailyPlan` with `goalsText` interpolated, whitespace kept
exactly as in the source). -/
def basePrompt (goals : List GoalRow) : String :=
  "\n            Context: The user has the following long-term goals:\n"
    ++ goalsText goals
    ++ "\n            \n            Instructions: Generate a strictly numbered daily to-do list for TODAY.\n            - Create exactly ONE actionable task for EACH long-term goal.\n            - Format output exactly like:\n              1. Task text here\n              2. Task text here\n            - Do not use markdown bolding on the numbers.\n            - Add a short motivational quote at the very end.\n        "

/-- The carry-over suffix appended to the prompt when unfinished tasks
exist. -/
def carryInstr (unfinished : List String) : String :=
  "\nIMPORTANT: Include these unfinished tasks from yesterday first:\n"
    ++ joinSep "\n" unfinished

/-- The full generation prompt: base prompt, plus the carry-over suffix
exactly when the unfinished list is nonempty. -/
def buildPrompt (goals : List GoalRow) (unfinished : List String) : String :=
  basePrompt goals ++ if unfinished.length > 0 then carryInstr unfinished else ""

/-- A string appears verbatim inside another: its character list occurs
contiguously. -/
def appearsIn (needle hay : String) : Prop :=
  ∃ pre post, hay.data = pre ++ needle.data ++ post

theorem data_append (a b : String) : (a ++ b).data = a.data ++ b.data := by
  cases a
  cases b
  rfl

theorem appearsIn_append_left (n a b : String) (h : appearsIn n a) :
    appearsIn n (a ++ b) := by
  obtain ⟨pre, post, hp⟩ := h
  exact ⟨pre, post ++ b.data, by rw [data_append, hp]; simp⟩

theorem appearsIn_append_right (n a b : String) (h : appearsIn n b) :
    appearsIn n (a ++ b) := by
  obtain ⟨pre, post, hp⟩ := h
  exact ⟨a.data ++ pre, post, by rw [data_append, hp]; simp⟩

theorem appearsIn_joinSep (sep s : String) (l : List String) (h : s ∈ l) :
    appearsIn s (joinSep sep l) := by
  induction l with
  | nil => cases h
  | cons x xs ih =>
    cases xs with
    | nil =>
      rcases List.mem_singleton.mp h with rfl
      exact ⟨[], [], by simp [joinSep]⟩
    | cons y ys =>
      rcases List.mem_cons.mp h with rfl | hmem
      · show appearsIn s (s ++ sep ++ joinSep sep (y :: ys))
        exact appearsIn_append_left _ _ _
          (appearsIn_append_left _ _ _ ⟨[], [], by simp⟩)
      · exact appearsIn_append_right _ _ _ (ih hmem)

/-- C4: the text of every unfinished task of yesterday's record appears
verbatim in today's generation prompt; a task with `done = true`
contributes nothing (removing it from the stored list leaves the
carry-over list unchanged); the carry-over list is exactly the texts of
the not-done tasks; and with no tasks the prompt is the base prompt with
no carry-over instruction. -/
theorem carry_over_inclusion (goals : List GoalRow) (ts : List Task) :
    (∀ t : Task, t ∈ ts → t.done = false →
      appearsIn t.text (buildPrompt goals (unfinishedOf ts))) ∧
    (∀ (t : Task) (pre post : List Task), t.done = true →
      unfinishedOf (pre ++ t :: post) = unfinishedOf (pre ++ post)) ∧
    unfinishedOf ts = (ts.filter fun t => !t.done).map Task.text ∧
    buildPrompt goals (unfinishedOf []) = basePrompt goals := by
  refine ⟨fun t hmem hdone => ?_, fun t pre post hdone => ?_, rfl, by
    show basePrompt goals ++ (if (0:Nat) > 0 then carryInstr [] else "") = basePrompt goals
    simp⟩
  · have htext : t.text ∈ unfinishedOf ts := by
      unfold unfinishedOf
      exact List.mem_map_of_mem _ (List.mem_filter.mpr ⟨hmem, by simp [hdone]⟩)
    have hlen : unfinishedOf ts ≠ [] := by
      intro hnil
      rw [hnil] at htext
      cases htext
    unfold buildPrompt
    rw [if_pos (by cases h : unfinishedOf ts with
      | nil => exact absurd h hlen
      | cons a l => simp [h])]
    exact appearsIn_append_right _ _ _
      (appearsIn_append_right _ _ _ (appearsIn_joinSep _ _ _ htext))
  · unfold unfinishedOf
    rw [List.filter_append, List.filter_append, List.filter_cons]
    simp [hdone]

/-- Witness for `carry_over_inclusion` at a concrete record: yesterday's
unfinished task "Call client" appears verbatim in the prompt built over one
goal, while the finished task is dropped. -/
theorem carry_over_inclusion_witness :
    (Task.mk 1 "Call client" false) ∈
        [Task.mk 1 "Call client" false, Task.mk 2 "Send invoice" true] ∧
    (Task.mk 1 "Call client" false).done = false ∧
    appearsIn "Call client"
      (buildPrompt [("Ship v1", none)]
        (unfinishedOf [Task.mk 1 "Call client" false, Task.mk 2 "Send invoice" true])) :=
  ⟨by decide, rfl,
    (carry_over_inclusion [("Ship v1", none)]
        [Task.mk 1 "Call client" false, Task.mk 2 "Send invoice" true]).1
      (Task.mk 1 "Call client" false) (by decide) rfl⟩

/-- One row of the `daily_activities` table: owning user, activity date
(as an abstract day key), raw generated content, structured task list. -/
structure ActivityRecord where
  userId : Nat
  date : Nat
  content : String
  tasks : List Task
deriving Repr, DecidableEq

/-- The daily-activity store: the rows of `daily_activities`. -/
abbrev ActStore := List ActivityRecord

/-- The row predicate `user_id = u AND activity_date = d`. -/
def actKeyMatch (u d : Nat) (r : ActivityRecord) : Bool :=
  r.userId == u && r.date == d

/-- The key of a row, for the uniqueness invariant. -/
def actKey (r : ActivityRecord) : Nat × Nat :=
  (r.userId, r.date)

/-- The `UNIQUE(user_id, activity_date)` constraint: pairwise distinct
keys. -/
def WFStore (s : ActStore) : Prop :=
  s.Pairwise fun a b => actKey a ≠ actKey b

/-- Model of `SELECT ... FROM daily_activities WHERE user_id = u AND
activity_date = d` returning at most one row. -/
def lookupRec (s : ActStore) (u d : Nat) : Option ActivityRecord :=
  s.find? (actKeyMatch u d)

/-- Model of `INSERT ... ON CONFLICT (user_id, activity_date) DO UPDATE SET
content = EXCLUDED.content, tasks = EXCLUDED.tasks`: overwrite the matching
row if one exists, otherwise append a new row. -/
def upsertActivity (s : ActStore) (u d : Nat) (c : String) (ts : List Task) : ActStore :=
  if s.any (actKeyMatch u d) then
    s.map fun r =>
      if actKeyMatch u d r then { r with content := c, tasks := ts } else r
  else
    s ++ [{ userId := u, date := d, content := c, tasks := ts }]

/-- Model of `UPDATE daily_activities SET tasks = ts WHERE user_id = u AND
activity_date = d`. -/
def updateTasks (s : ActStore) (u d : Nat) (ts : List Task) : ActStore :=
  s.map fun r => if actKeyMatch u d r then { r with tasks := ts } else r

/-- Number of rows stored under a key. -/
def keyCount (s : ActStore) (u d : Nat) : Nat :=
  (s.filter (actKeyMatch u d)).length

theorem actKeyMatch_eq (u d : Nat) (r : ActivityRecord)
    (h : actKeyMatch u d r = true) : r.userId = u ∧ r.date = d := by
  unfold actKeyMatch at h
  rw [Bool.and_eq_true, beq_iff_eq, beq_iff_eq] at h
  exact h

theorem actKey_eq_of_match (u d : Nat) (r : ActivityRecord)
    (h : actKeyMatch u d r = true) : actKey r = (u, d) := by
  obtain ⟨h1, h2⟩ := actKeyMatch_eq u d r h
  unfold actKey
  rw [h1, h2]

theorem actKeyMatch_of_key (u d : Nat) (r : ActivityRecord)
    (h : actKey r = (u, d)) : actKeyMatch u d r = true := by
  unfold actKey at h
  unfold actKeyMatch
  rw [Bool.and_eq_true, beq_iff_eq, beq_iff_eq]
  exact ⟨congrArg Prod.fst h, congrArg Prod.snd h⟩

theorem lookupRec_mem (s : ActStore) (u d : Nat) (r : ActivityRecord)
    (h : lookupRec s u d = some r) : r ∈ s ∧ actKeyMatch u d r = true :=
  ⟨List.mem_of_find?_eq_some h, List.find?_some h⟩

theorem map_fixpoints (f : α → α) (l : List α) (h : ∀ x ∈ l, f x = x) :
    l.map f = l := by
  induction l with
  | nil => rfl
  | cons a t ih =>
    rw [List.map_cons, h a (List.mem_cons_self a t),
      ih fun x hx => h x (List.mem_cons_of_mem a hx)]

theorem lookupRec_updateTasks (s : ActStore) (u d : Nat) (ts : List Task) :
    lookupRec (updateTasks s u d ts) u d =
      (lookupRec s u d).map fun r => { r with tasks := ts } := by
  induction s with
  | nil => rfl
  | cons h t ih =>
    show List.find? (actKeyMatch u d)
        ((if actKeyMatch u d h then { h with tasks := ts } else h) ::
          updateTasks t u d ts) =
      Option.map _ (List.find? (actKeyMatch u d) (h :: t))
    by_cases hm : actKeyMatch u d h = true
    · rw [if_pos hm,
        List.find?_cons_of_pos _ (show actKeyMatch u d { h with tasks := ts } = true from hm),
        List.find?_cons_of_pos _ hm]
      rfl
    · rw [if_neg hm, List.find?_cons_of_neg _ hm, List.find?_cons_of_neg _ hm]
      exact ih

theorem updateTasks_updateTasks (s : ActStore) (u d : Nat) (a b : List Task) :
    updateTasks (updateTasks s u d a) u d b = updateTasks s u d b := by
  unfold updateTasks
  rw [List.map_map]
  apply List.map_congr_left
  intro r _
  by_cases hm : actKeyMatch u d r = true
  · have hm2 : actKeyMatch u d { r with tasks := a } = true := hm
    simp [Function.comp, hm, hm2]
  · have hb : actKeyMatch u d r = false := by
      cases hq : actKeyMatch u d r
      · rfl
      · exact absurd hq hm
    simp [Function.comp, hb]

theorem pairwise_no_match (s : ActStore) (u d : Nat) (h : ActivityRecord)
    (hwf : (h :: s).Pairwise fun a b => actKey a ≠ actKey b)
    (hm : actKeyMatch u d h = true) :
    ∀ x ∈ s, actKeyMatch u d x = false := by
  intro x hx
  have hne : actKey h ≠ actKey x := (List.pairwise_cons.mp hwf).1 x hx
  cases hq : actKeyMatch u d x
  · rfl
  · exact absurd (by
      rw [actKey_eq_of_match u d h hm, actKey_eq_of_match u d x hq])
      hne

theorem updateTasks_self (s : ActStore) (u d : Nat) (r : ActivityRecord)
    (hwf : WFStore s) (hr : lookupRec s u d = some r) :
    updateTasks s u d r.tasks = s := by
  induction s with
  | nil => cases hr
  | cons h t ih =>
    unfold lookupRec at hr
    show (if actKeyMatch u d h then { h with tasks := r.tasks } else h) ::
        updateTasks t u d r.tasks = h :: t
    by_cases hm : actKeyMatch u d h = true
    · rw [List.find?_cons_of_pos _ hm] at hr
      injection hr with hr
      subst hr
      have htail : updateTasks t u d h.tasks = t := by
        apply map_fixpoints
        intro x hx
        rw [pairwise_no_match t u d h hwf hm x hx]
        rfl
      rw [if_pos hm, htail]
    · rw [List.find?_cons_of_neg _ hm] at hr
      rw [if_neg hm, ih (List.pairwise_cons.mp hwf).2 hr]

/-- The toggle pass of the callback handler:
`tasks.map(t => if t.id === k then flip t.done)` — every task whose ordinal
equals `k` has its completion flag inverted, all others are returned
unchanged. -/
def toggleTasks (k : Nat) (ts : List Task) : List Task :=
  ts.map fun t => if t.id = k then { t with done := !t.done } else t

theorem toggleTasks_toggleTasks (k : Nat) (ts : List Task) :
    toggleTasks k (toggleTasks k ts) = ts := by
  unfold toggleTasks
  rw [List.map_map]
  apply map_fixpoints
  intro t _
  obtain ⟨i, x, b⟩ := t
  by_cases h : i = k
  · subst h
    simp [Function.comp]
  · simp [Function.comp, h]

theorem toggleTasks_any_id (k : Nat) (ts : List Task) :
    ((toggleTasks k ts).any fun t => t.id == k) = (ts.any fun t => t.id == k) := by
  induction ts with
  | nil => rfl
  | cons t ts ih =>
    unfold toggleTasks at *
    by_cases h : t.id = k
    · simp only [List.map_cons, List.any_cons, if_pos h, ih]
    · simp only [List.map_cons, List.any_cons, if_neg h, ih]

/-- Events observable at the chat and store boundary of one handler or
orchestrator invocation, in order of occurrence. -/
inductive BotEvent where
  | msg (text : String)
  | logErr (text : String)
  | genCall (prompt : String)
  | dbWrite (u d : Nat)
  | editMsg (text : String)
  | cbAck
deriving Repr, DecidableEq

/-- The rebuilt message body of the toggle handler: each task rendered
struck-through with a check mark when done, plain otherwise, one line per
task. -/
def renderTasksChecked (ts : List Task) : String :=
  ts.foldl
    (fun acc t =>
      acc ++ if t.done then "✅ ~" ++ toString t.id ++ ". " ++ t.text ++ "~\n"
             else toString t.id ++ ". " ++ t.text ++ "\n")
    ""

/-- The trailing-quote heuristic's test: does the line match leading digits
followed by a dot. -/
def startsWithNumDot (cs : List Char) : Bool :=
  !(cs.takeWhile Char.isDigit).isEmpty &&
    (cs.dropWhile Char.isDigit).head? == some '.'

/-- The full re-rendered text of the toggle handler: checked task lines,
plus the last line of the original message appended back when it does not
look like a numbered task. -/
def toggleRenderedText (ts : List Task) (origText : String) : String :=
  let base := renderTasksChecked ts
  let quote := ((splitLines origText.data).getLast?).getD []
  if !startsWithNumDot quote then base ++ "\n" ++ String.mk quote else base

/-- The `check_task_` branch of the callback-query handler: unknown user is
an immediate return; otherwise load today's record, and only when a task
with the clicked ordinal exists toggle every such task, write the full list
back, and edit the message; in every case the callback is acknowledged. -/
def handleCheckTask (userKnown : Bool) (store : ActStore) (u todayKey k : Nat)
    (origText : String) : ActStore × List BotEvent :=
  if !userKnown then
    (store, [])
  else
    match lookupRec store u todayKey with
    | none => (store, [BotEvent.cbAck])
    | some r =>
      if r.tasks.any fun t => t.id == k then
        let ts2 := toggleTasks k r.tasks
        (updateTasks store u todayKey ts2,
          [BotEvent.dbWrite u todayKey,
           BotEvent.editMsg (toggleRenderedText ts2 origText),
           BotEvent.cbAck])
      else
        (store, [BotEvent.cbAck])

/-- C5: for a well-formed store holding today's record whose task list
contains ordinal `k`, applying the toggle handler for `k` twice returns the
store (and hence every task's completion flag) to its original state, and a
single application inverts exactly the flags of the tasks with ordinal `k`,
leaving every other task unchanged. -/
theorem toggle_correctness (store : ActStore) (u d k : Nat)
    (orig1 orig2 : String) (r : ActivityRecord)
    (hwf : WFStore store) (hr : lookupRec store u d = some r)
    (hk : (r.tasks.any fun t => t.id == k) = true) :
    (handleCheckTask true
        (handleCheckTask true store u d k orig1).1 u d k orig2).1 = store ∧
    (handleCheckTask true store u d k orig1).1 =
      updateTasks store u d (toggleTasks k r.tasks) ∧
    (∀ i : Nat, (toggleTasks k r.tasks)[i]? =
      (r.tasks[i]?).map fun t =>
        if t.id = k then { t with done := !t.done } else t) := by
  have h1 : handleCheckTask true store u d k orig1 =
      (updateTasks store u d (toggleTasks k r.tasks),
        [BotEvent.dbWrite u d,
         BotEvent.editMsg (toggleRenderedText (toggleTasks k r.tasks) orig1),
         BotEvent.cbAck]) := by
    unfold handleCheckTask
    rw [hr]
    simp [hk]
  have hlk2 : lookupRec (updateTasks store u d (toggleTasks k r.tasks)) u d =
      some { r with tasks := toggleTasks k r.tasks } := by
    rw [lookupRec_updateTasks, hr]
    rfl
  have hk2 : ((toggleTasks k r.tasks).any fun t => t.id == k) = true := by
    rw [toggleTasks_any_id]
    exact hk
  have h2 : handleCheckTask true
      (updateTasks store u d (toggleTasks k r.tasks)) u d k orig2 =
      (updateTasks (updateTasks store u d (toggleTasks k r.tasks)) u d
          (toggleTasks k (toggleTasks k r.tasks)),
        [BotEvent.dbWrite u d,
         BotEvent.editMsg (toggleRenderedText
           (toggleTasks k (toggleTasks k r.tasks)) orig2),
         BotEvent.cbAck]) := by
    unfold handleCheckTask
    rw [hlk2]
    simp [hk2]
  refine ⟨?_, by rw [h1], fun i => ?_⟩
  · rw [h1, h2]
    rw [toggleTasks_toggleTasks, updateTasks_updateTasks]
    exact updateTasks_self store u d r hwf hr
  · unfold toggleTasks
    rw [List.getElem?_map]

/-- Witness for `toggle_correctness`: a concrete one-record store with
tasks 1 (unfinished) and 2 (finished); toggling ordinal 1 twice restores
the store. -/
theorem toggle_correctness_witness :
    WFStore [ActivityRecord.mk 7 3 "raw" [Task.mk 1 "a" false, Task.mk 2 "b" true]] ∧
    lookupRec [ActivityRecord.mk 7 3 "raw" [Task.mk 1 "a" false, Task.mk 2 "b" true]] 7 3 =
      some (ActivityRecord.mk 7 3 "raw" [Task.mk 1 "a" false, Task.mk 2 "b" true]) ∧
    (handleCheckTask true
        (handleCheckTask true
          [ActivityRecord.mk 7 3 "raw" [Task.mk 1 "a" false, Task.mk 2 "b" true]]
          7 3 1 "x").1 7 3 1 "y").1 =
      [ActivityRecord.mk 7 3 "raw" [Task.mk 1 "a" false, Task.mk 2 "b" true]] := by
  refine ⟨List.pairwise_singleton _ _, rfl, ?_⟩
  exact (toggle_correctness
    [ActivityRecord.mk 7 3 "raw" [Task.mk 1 "a" false, Task.mk 2 "b" true]]
    7 3 1 "x" "y"
    (ActivityRecord.mk 7 3 "raw" [Task.mk 1 "a" false, Task.mk 2 "b" true])
    (List.pairwise_singleton _ _) rfl rfl).1

/-- C6: a toggle event for an unknown user, for a user with no record
today, or for an ordinal absent from today's task list leaves the store
untouched and produces no user-visible message (at most the silent
callback acknowledgement) — a silent no-op. -/
theorem stale_toggle_safety (store : ActStore) (u d k : Nat) (orig : String) :
    (handleCheckTask false store u d k orig = (store, [])) ∧
    (lookupRec store u d = none →
      handleCheckTask true store u d k orig = (store, [BotEvent.cbAck])) ∧
    (∀ r : ActivityRecord, lookupRec store u d = some r →
      (r.tasks.any fun t => t.id == k) = false →
      handleCheckTask true store u d k orig = (store, [BotEvent.cbAck])) := by
  refine ⟨rfl, fun hnone => ?_, fun r hr hk => ?_⟩
  · unfold handleCheckTask
    rw [hnone]
    simp
  · unfold handleCheckTask
    rw [hr]
    simp [hk]

/-- Witness for `stale_toggle_safety`: a concrete store whose only task has
ordinal 1; clicking ordinal 9 (stale), clicking with no record, and an
unknown user are all no-ops. -/
theorem stale_toggle_safety_witness :
    lookupRec [ActivityRecord.mk 7 3 "raw" [Task.mk 1 "a" false]] 7 3 =
      some (ActivityRecord.mk 7 3 "raw" [Task.mk 1 "a" false]) ∧
    (([Task.mk 1 "a" false].any fun t => t.id == 9) = false) ∧
    handleCheckTask true [ActivityRecord.mk 7 3 "raw" [Task.mk 1 "a" false]] 7 3 9 "x" =
      ([ActivityRecord.mk 7 3 "raw" [Task.mk 1 "a" false]], [BotEvent.cbAck]) :=
  ⟨rfl, rfl,
    (stale_toggle_safety [ActivityRecord.mk 7 3 "raw" [Task.mk 1 "a" false]] 7 3 9 "x").2.2
      (ActivityRecord.mk 7 3 "raw" [Task.mk 1 "a" false]) rfl rfl⟩

/-- C10: when today's task list contains several tasks with the clicked
ordinal `k`, one toggle event inverts the flag of every one of them (the
map has no first-match cut-off) and persists all the flips in a single
overwrite of the task list, with one store write. -/
theorem duplicate_ordinal_toggle (store : ActStore) (u d k : Nat)
    (orig : String) (r : ActivityRecord)
    (hr : lookupRec store u d = some r)
    (hk : (r.tasks.any fun t => t.id == k) = true) :
    handleCheckTask true store u d k orig =
      (updateTasks store u d (toggleTasks k r.tasks),
        [BotEvent.dbWrite u d,
         BotEvent.editMsg (toggleRenderedText (toggleTasks k r.tasks) orig),
         BotEvent.cbAck]) ∧
    (∀ i : Nat, (toggleTasks k r.tasks)[i]? =
      (r.tasks[i]?).map fun t =>
        if t.id = k then { t with done := !t.done } else t) := by
  constructor
  · unfold handleCheckTask
    rw [hr]
    simp [hk]
  · intro i
    unfold toggleTasks
    rw [List.getElem?_map]

/-- Witness for `duplicate_ordinal_toggle`: both tasks share ordinal 2 and
one click flips both, persisted in one write. -/
theorem duplicate_ordinal_toggle_witness :
    lookupRec [ActivityRecord.mk 7 3 "raw" [Task.mk 2 "a" false, Task.mk 2 "b" true]] 7 3 =
      some (ActivityRecord.mk 7 3 "raw" [Task.mk 2 "a" false, Task.mk 2 "b" true]) ∧
    toggleTasks 2 [Task.mk 2 "a" false, Task.mk 2 "b" true] =
      [Task.mk 2 "a" true, Task.mk 2 "b" false] ∧
    handleCheckTask true
        [ActivityRecord.mk 7 3 "raw" [Task.mk 2 "a" false, Task.mk 2 "b" true]]
        7 3 2 "x" =
      (updateTasks [ActivityRecord.mk 7 3 "raw" [Task.mk 2 "a" false, Task.mk 2 "b" true]]
          7 3 (toggleTasks 2 [Task.mk 2 "a" false, Task.mk 2 "b" true]),
        [BotEvent.dbWrite 7 3,
         BotEvent.editMsg (toggleRenderedText
           (toggleTasks 2 [Task.mk 2 "a" false, Task.mk 2 "b" true]) "x"),
         BotEvent.cbAck]) :=
  ⟨rfl, by decide,
    (duplicate_ordinal_toggle
      [ActivityRecord.mk 7 3 "raw" [Task.mk 2 "a" false, Task.mk 2 "b" true]]
      7 3 2 "x"
      (ActivityRecord.mk 7 3 "raw" [Task.mk 2 "a" false, Task.mk 2 "b" true])
      rfl rfl).1⟩

theorem actKeyMatch_set (u d : Nat) (c : String) (ts : List Task) (r : ActivityRecord) :
    actKeyMatch u d { r with content := c, tasks := ts } = actKeyMatch u d r := rfl

theorem actKeyMatch_self (u d : Nat) (c : String) (ts : List Task) :
    actKeyMatch u d (ActivityRecord.mk u d c ts) = true := by
  unfold actKeyMatch
  rw [Bool.and_eq_true, beq_iff_eq, beq_iff_eq]
  exact ⟨rfl, rfl⟩

theorem find?_upsert_map (s : ActStore) (u d : Nat) (c : String) (ts : List Task)
    (h : s.any (actKeyMatch u d) = true) :
    (s.map fun r =>
        if actKeyMatch u d r then { r with content := c, tasks := ts } else r).find?
        (actKeyMatch u d) =
      some (ActivityRecord.mk u d c ts) := by
  induction s with
  | nil => cases h
  | cons a t ih =>
    by_cases hm : actKeyMatch u d a = true
    · rw [List.map_cons, if_pos hm,
        List.find?_cons_of_pos _ (by rw [actKeyMatch_set]; exact hm)]
      obtain ⟨h1, h2⟩ := actKeyMatch_eq u d a hm
      rw [show ({ a with content := c, tasks := ts } : ActivityRecord) =
        ActivityRecord.mk a.userId a.date c ts from rfl, h1, h2]
    · have hb : actKeyMatch u d a = false := by
        cases hq : actKeyMatch u d a
        · rfl
        · exact absurd hq hm
      have ht : t.any (actKeyMatch u d) = true := by
        rw [List.any_cons, hb] at h
        simpa using h
      rw [List.map_cons, if_neg hm, List.find?_cons_of_neg _ hm]
      exact ih ht

theorem find?_append_single (s : ActStore) (u d : Nat) (r : ActivityRecord)
    (h : s.any (actKeyMatch u d) = false) (hr : actKeyMatch u d r = true) :
    (s ++ [r]).find? (actKeyMatch u d) = some r := by
  induction s with
  | nil => exact List.find?_cons_of_pos _ hr
  | cons a t ih =>
    rw [List.any_cons, Bool.or_eq_false_iff] at h
    rw [List.cons_append, List.find?_cons_of_neg _ (by rw [h.1]; exact Bool.false_ne_true)]
    exact ih h.2

theorem lookupRec_upsert_self (s : ActStore) (u d : Nat) (c : String) (ts : List Task) :
    lookupRec (upsertActivity s u d c ts) u d = some (ActivityRecord.mk u d c ts) := by
  unfold upsertActivity lookupRec
  by_cases h : s.any (actKeyMatch u d) = true
  · rw [if_pos h]
    exact find?_upsert_map s u d c ts h
  · have hb : s.any (actKeyMatch u d) = false := by
      cases hq : s.any (actKeyMatch u d)
      · rfl
      · exact absurd hq h
    rw [if_neg h]
    exact find?_append_single s u d _ hb (actKeyMatch_self u d c ts)

theorem lookupRec_upsert_ne (s : ActStore) (u d u2 d2 : Nat) (c : String)
    (ts : List Task) (hne : (u2, d2) ≠ (u, d)) :
    lookupRec (upsertActivity s u d c ts) u2 d2 = lookupRec s u2 d2 := by
  unfold upsertActivity lookupRec
  by_cases h : s.any (actKeyMatch u d) = true
  · rw [if_pos h]
    induction s with
    | nil => rfl
    | cons a t ih =>
      by_cases hm : actKeyMatch u d a = true
      · have hkey : actKey a = (u, d) := actKey_eq_of_match u d a hm
        have hno : actKeyMatch u2 d2 a = false := by
          cases hq : actKeyMatch u2 d2 a
          · rfl
          · exact absurd (by rw [actKey_eq_of_match u2 d2 a hq] at hkey; exact hkey.symm)
              (by intro hc; exact hne (by rw [hc]))
        rw [List.map_cons, if_pos hm,
          List.find?_cons_of_neg _ (by rw [actKeyMatch_set]; rw [hno]; exact Bool.false_ne_true),
          List.find?_cons_of_neg _ (by rw [hno]; exact Bool.false_ne_true)]
        by_cases ht : t.any (actKeyMatch u d) = true
        · exact ih ht
        · rw [map_fixpoints _ t fun x hx => by
            rw [if_neg (by
              intro hc
              rw [List.any_eq_true] at ht
              exact ht ⟨x, hx, hc⟩)]]
      · rw [List.map_cons, if_neg hm]
        by_cases h2 : actKeyMatch u2 d2 a = true
        · rw [List.find?_cons_of_pos _ h2, List.find?_cons_of_pos _ h2]
        · rw [List.find?_cons_of_neg _ h2, List.find?_cons_of_neg _ h2]
          have ht : t.any (actKeyMatch u d) = true := by
            rw [List.any_cons] at h
            rcases Bool.or_eq_true_iff.mp h with hc | hc
            · exact absurd hc hm
            · exact hc
          exact ih ht
  · rw [if_neg h]
    induction s with
    | nil =>
      rw [List.nil_append, List.find?_cons_of_neg _ (by
        intro hc
        exact hne (actKey_eq_of_match u2 d2 _ hc).symm)]
    | cons a t ih =>
      rw [List.cons_append]
      by_cases h2 : actKeyMatch u2 d2 a = true
      · rw [List.find?_cons_of_pos _ h2, List.find?_cons_of_pos _ h2]
      · rw [List.find?_cons_of_neg _ h2, List.find?_cons_of_neg _ h2]
        exact ih (by
          intro hc
          rw [List.any_cons, hc, Bool.or_true] at h
          exact h rfl)

theorem keyCount_map_preserve (s : ActStore) (u d : Nat) (c : String) (ts : List Task) :
    keyCount (s.map fun r =>
      if actKeyMatch u d r then { r with content := c, tasks := ts } else r) u d =
      keyCount s u d := by
  induction s with
  | nil => rfl
  | cons a t ih =>
    unfold keyCount at *
    by_cases hm : actKeyMatch u d a = true
    · rw [List.map_cons, if_pos hm, List.filter_cons, List.filter_cons]
      rw [actKeyMatch_set, hm]
      simp only [if_true]
      rw [List.length_cons, List.length_cons, ih]
    · have hb : actKeyMatch u d a = false := by
        cases hq : actKeyMatch u d a
        · rfl
        · exact absurd hq hm
      rw [List.map_cons, if_neg hm, List.filter_cons, List.filter_cons, hb]
      simp only [Bool.false_eq_true, if_false]
      exact ih

theorem keyCount_eq_one (s : ActStore) (u d : Nat)
    (hwf : WFStore s) (h : s.any (actKeyMatch u d) = true) :
    keyCount s u d = 1 := by
  induction s with
  | nil => cases h
  | cons a t ih =>
    unfold keyCount
    by_cases hm : actKeyMatch u d a = true
    · rw [List.filter_cons, hm]
      simp only [if_true]
      have hnil : t.filter (actKeyMatch u d) = [] := by
        apply List.filter_eq_nil_iff.mpr
        intro x hx
        rw [pairwise_no_match t u d a hwf hm x hx]
        exact Bool.false_ne_true
      rw [hnil]
      rfl
    · have hb : actKeyMatch u d a = false := by
        cases hq : actKeyMatch u d a
        · rfl
        · exact absurd hq hm
      have ht : t.any (actKeyMatch u d) = true := by
        rw [List.any_cons, hb] at h
        simpa using h
      rw [List.filter_cons, hb]
      simp only [Bool.false_eq_true, if_false]
      exact ih (List.pairwise_cons.mp hwf).2 ht

theorem keyCount_upsert_self (s : ActStore) (u d : Nat) (c : String) (ts : List Task)
    (hwf : WFStore s) :
    keyCount (upsertActivity s u d c ts) u d = 1 := by
  unfold upsertActivity
  by_cases h : s.any (actKeyMatch u d) = true
  · rw [if_pos h, keyCount_map_preserve]
    exact keyCount_eq_one s u d hwf h
  · have hb : s.any (actKeyMatch u d) = false := by
      cases hq : s.any (actKeyMatch u d)
      · rfl
      · exact absurd hq h
    rw [if_neg h]
    unfold keyCount
    rw [List.filter_append, List.filter_eq_nil_iff.mpr (fun x hx => by
      rw [List.any_eq_false] at hb
      exact hb x hx)]
    rw [List.nil_append, List.filter_cons, actKeyMatch_self]
    rfl

theorem WFStore_upsert (s : ActStore) (u d : Nat) (c : String) (ts : List Task)
    (hwf : WFStore s) : WFStore (upsertActivity s u d c ts) := by
  unfold upsertActivity
  by_cases h : s.any (actKeyMatch u d) = true
  · rw [if_pos h]
    unfold WFStore at *
    rw [List.pairwise_map]
    apply hwf.imp_of_mem
    intro a b _ _ hab
    by_cases ha : actKeyMatch u d a = true <;> by_cases hb2 : actKeyMatch u d b = true <;>
      simp only [if_pos, if_neg, ha, hb2] <;> exact hab
  · rw [if_neg h]
    unfold WFStore at *
    rw [List.pairwise_append]
    refine ⟨hwf, List.pairwise_singleton _ _, ?_⟩
    intro a ha b hb
    rcases List.mem_singleton.mp hb with rfl
    intro hc
    have hmatch : actKeyMatch u d a = true := actKeyMatch_of_key u d a hc
    exact h (List.any_eq_true.mpr ⟨a, ha, hmatch⟩)

theorem length_upsert_existing (s : ActStore) (u d : Nat) (c : String) (ts : List Task)
    (h : s.any (actKeyMatch u d) = true) :
    (upsertActivity s u d c ts).length = s.length := by
  unfold upsertActivity
  rw [if_pos h, List.length_map]

theorem any_upsert_self (s : ActStore) (u d : Nat) (c : String) (ts : List Task) :
    (upsertActivity s u d c ts).any (actKeyMatch u d) = true := by
  have := lookupRec_upsert_self s u d c ts
  unfold lookupRec at this
  rw [List.any_eq_true]
  exact ⟨_, List.mem_of_find?_eq_some this, List.find?_some this⟩

/-- Environment of one orchestrator invocation: the outcome of each
effectful step (a `some` error message means that await rejects, as a
store/provider/transport failure would), the generation provider as a
text-to-text function, and the two day keys the queries use. -/
structure OrchEnv where
  failYesterdayRead : Option String
  failGoalsRead : Option String
  failGenerate : Option String
  failWrite : Option String
  failSend : Option String
  gen : String → String
  yesterdayKey : Nat
  todayKey : Nat

/-- The fire-and-forget progress notice sent at the top of every
invocation. -/
def checkingMsg : String :=
  "🤖 Checking yesterday's progress and generating today's plan..."

/-- The zero-goal explanatory message. -/
def noGoalsMsg : String :=
  "🌅 Good morning! You have no active goals. Use /addgoal to start."

/-- The generic retry-later notice of the catch block. -/
def snagMsg : String :=
  "⚠️ I tried to generate your plan but hit a snag. Please try /generate again."

/-- Yesterday's carry-over list as the orchestrator computes it: empty when
no row exists, otherwise the texts of the not-done tasks. -/
def yesterdayUnfinished (store : ActStore) (u yKey : Nat) : List String :=
  match lookupRec store u yKey with
  | some r => unfinishedOf r.tasks
  | none => []

/-- The final message of a successful run: header (with carry-over warning
when applicable) plus the raw generated text. -/
def planMessage (unfinished : List String) (text : String) : String :=
  (if unfinished.length > 0 then
    "⚠️ **Carried over unfinished tasks!** \n\n" ++ "🌞 **Here is your plan for today:**"
   else "🌞 **Here is your plan for today:**") ++ "\n\n" ++ text

/-- The plan orchestrator `generateAndSendDailyPlan`, step for step: send
the progress notice, read yesterday's record, read the goals, short-circuit
when both are empty, build the prompt, call the provider, parse, upsert
today's record, send the rendered plan.  The whole body sits in one
try/catch whose handler logs and sends the retry-later notice, so every
failure path returns normally with the store reflecting only the writes
that committed. -/
def generateAndSendDailyPlan (env : OrchEnv) (userId : Nat) (goals : List GoalRow)
    (store : ActStore) : ActStore × List BotEvent :=
  match env.failYesterdayRead with
  | some e =>
    (store, [BotEvent.msg checkingMsg, BotEvent.logErr e, BotEvent.msg snagMsg])
  | none =>
    let unfinished := yesterdayUnfinished store userId env.yesterdayKey
    match env.failGoalsRead with
    | some e =>
      (store, [BotEvent.msg checkingMsg, BotEvent.logErr e, BotEvent.msg snagMsg])
    | none =>
      if goals.length = 0 ∧ unfinished.length = 0 then
        (store, [BotEvent.msg checkingMsg, BotEvent.msg noGoalsMsg])
      else
        let prompt := buildPrompt goals unfinished
        match env.failGenerate with
        | some e =>
          (store, [BotEvent.msg checkingMsg, BotEvent.genCall prompt,
            BotEvent.logErr e, BotEvent.msg snagMsg])
        | none =>
          let text := env.gen prompt
          let tasksArray := parseTasks text
          match env.failWrite with
          | some e =>
            (store, [BotEvent.msg checkingMsg, BotEvent.genCall prompt,
              BotEvent.logErr e, BotEvent.msg snagMsg])
          | none =>
            let store2 := upsertActivity store userId env.todayKey text tasksArray
            match env.failSend with
            | some e =>
              (store2, [BotEvent.msg checkingMsg, BotEvent.genCall prompt,
                BotEvent.dbWrite userId env.todayKey,
                BotEvent.logErr e, BotEvent.msg snagMsg])
            | none =>
              (store2, [BotEvent.msg checkingMsg, BotEvent.genCall prompt,
                BotEvent.dbWrite userId env.todayKey,
                BotEvent.msg (planMessage unfinished text)])

/-- The 6 AM scheduler loop: for every registered user in sequence, await
`generateAndSendDailyPlan` and collect its events, threading the store. -/
def runDailyForAllUsers :
    List (Nat × List GoalRow × OrchEnv) → ActStore → ActStore × List (List BotEvent)
  | [], store => (store, [])
  | (u, goals, env) :: rest, store =>
    let r := generateAndSendDailyPlan env u goals store
    let rr := runDailyForAllUsers rest r.1
    (rr.1, r.2 :: rr.2)

/-- An all-success environment with a constant provider, used for concrete
witnesses. -/
def okEnv : OrchEnv :=
  { failYesterdayRead := none, failGoalsRead := none, failGenerate := none,
    failWrite := none, failSend := none,
    gen := fun _ => "1. Do the thing", yesterdayKey := 0, todayKey := 1 }

/-- C1 (upsert idempotence): with every step succeeding, running the
orchestrator twice for the same user and the same day keys over a
well-formed store leaves exactly one record under (user, today) — the
second run's text and parsed task list — with no growth of the store
between the runs and the uniqueness invariant intact. -/
theorem run_success (env : OrchEnv) (u : Nat) (goals : List GoalRow)
    (store : ActStore)
    (hY : env.failYesterdayRead = none) (hG : env.failGoalsRead = none)
    (hGen : env.failGenerate = none) (hW : env.failWrite = none)
    (hS : env.failSend = none)
    (hnz : ¬(goals.length = 0 ∧
      (yesterdayUnfinished store u env.yesterdayKey).length = 0)) :
    generateAndSendDailyPlan env u goals store =
      (upsertActivity store u env.todayKey
        (env.gen (buildPrompt goals (yesterdayUnfinished store u env.yesterdayKey)))
        (parseTasks (env.gen (buildPrompt goals
          (yesterdayUnfinished store u env.yesterdayKey)))),
       [BotEvent.msg checkingMsg,
        BotEvent.genCall (buildPrompt goals (yesterdayUnfinished store u env.yesterdayKey)),
        BotEvent.dbWrite u env.todayKey,
        BotEvent.msg (planMessage (yesterdayUnfinished store u env.yesterdayKey)
          (env.gen (buildPrompt goals (yesterdayUnfinished store u env.yesterdayKey))))]) := by
  simp only [generateAndSendDailyPlan, hY, hG, hGen, hW, hS]
  rw [if_neg hnz]

theorem upsert_idempotence (env : OrchEnv) (u : Nat) (goals : List GoalRow)
    (store : ActStore) (hwf : WFStore store)
    (hY : env.failYesterdayRead = none) (hG : env.failGoalsRead = none)
    (hGen : env.failGenerate = none) (hW : env.failWrite = none)
    (hS : env.failSend = none) (hgoals : goals ≠ [])
    (hkeys : env.yesterdayKey ≠ env.todayKey) :
    keyCount (generateAndSendDailyPlan env u goals
        (generateAndSendDailyPlan env u goals store).1).1 u env.todayKey = 1 ∧
    lookupRec (generateAndSendDailyPlan env u goals
        (generateAndSendDailyPlan env u goals store).1).1 u env.todayKey =
      some (ActivityRecord.mk u env.todayKey
        (env.gen (buildPrompt goals (yesterdayUnfinished store u env.yesterdayKey)))
        (parseTasks (env.gen (buildPrompt goals
          (yesterdayUnfinished store u env.yesterdayKey))))) ∧
    (generateAndSendDailyPlan env u goals
        (generateAndSendDailyPlan env u goals store).1).1.length =
      (generateAndSendDailyPlan env u goals store).1.length ∧
    WFStore (generateAndSendDailyPlan env u goals
        (generateAndSendDailyPlan env u goals store).1).1 := by
  have hnz : ¬(goals.length = 0 ∧
      (yesterdayUnfinished store u env.yesterdayKey).length = 0) := by
    intro hc
    exact hgoals (List.length_eq_zero.mp hc.1)
  have hrun1 : (generateAndSendDailyPlan env u goals store).1 =
      upsertActivity store u env.todayKey
        (env.gen (buildPrompt goals (yesterdayUnfinished store u env.yesterdayKey)))
        (parseTasks (env.gen (buildPrompt goals
          (yesterdayUnfinished store u env.yesterdayKey)))) := by
    rw [run_success env u goals store hY hG hGen hW hS hnz]
  have hsame : yesterdayUnfinished (generateAndSendDailyPlan env u goals store).1
        u env.yesterdayKey =
      yesterdayUnfinished store u env.yesterdayKey := by
    rw [hrun1]
    unfold yesterdayUnfinished
    rw [lookupRec_upsert_ne _ _ _ _ _ _ _ (by
      intro hc
      exact hkeys (congrArg Prod.snd hc))]
  have hnz2 : ¬(goals.length = 0 ∧
      (yesterdayUnfinished ((generateAndSendDailyPlan env u goals store).1) u
        env.yesterdayKey).length = 0) := by
    intro hc
    exact hgoals (List.length_eq_zero.mp hc.1)
  have hrun2 : (generateAndSendDailyPlan env u goals
      (generateAndSendDailyPlan env u goals store).1).1 =
      upsertActivity (generateAndSendDailyPlan env u goals store).1 u env.todayKey
        (env.gen (buildPrompt goals (yesterdayUnfinished store u env.yesterdayKey)))
        (parseTasks (env.gen (buildPrompt goals
          (yesterdayUnfinished store u env.yesterdayKey)))) := by
    rw [run_success env u goals (generateAndSendDailyPlan env u goals store).1
      hY hG hGen hW hS hnz2]
    rw [hsame]
  have hwf1 : WFStore (generateAndSendDailyPlan env u goals store).1 := by
    rw [hrun1]
    exact WFStore_upsert _ _ _ _ _ hwf
  refine ⟨?_, ?_, ?_, ?_⟩
  · rw [hrun2]
    exact keyCount_upsert_self _ _ _ _ _ hwf1
  · rw [hrun2]
    exact lookupRec_upsert_self _ _ _ _ _
  · rw [hrun2]
    apply length_upsert_existing
    rw [hrun1]
    exact any_upsert_self _ _ _ _ _
  · rw [hrun2]
    exact WFStore_upsert _ _ _ _ _ hwf1

/-- Witness for `upsert_idempotence`: one goal, empty well-formed store,
all steps succeeding, distinct day keys. -/
theorem upsert_idempotence_witness :
    WFStore ([] : ActStore) ∧
    ([("Ship v1", none)] : List GoalRow) ≠ [] ∧
    okEnv.yesterdayKey ≠ okEnv.todayKey ∧
    keyCount (generateAndSendDailyPlan okEnv 1 [("Ship v1", none)]
        (generateAndSendDailyPlan okEnv 1 [("Ship v1", none)] []).1).1 1
        okEnv.todayKey = 1 :=
  ⟨List.Pairwise.nil, by decide, by decide,
    (upsert_idempotence okEnv 1 [("Ship v1", none)] [] List.Pairwise.nil
      rfl rfl rfl rfl rfl (by decide) (by decide)).1⟩

/-- C2 (amended): for a user with no goals and no unfinished carry-over,
the orchestrator performs no generation call and no store write and sends
exactly two messages — the fixed progress notice that every invocation
starts with, then the "no active goals" explanation — returning normally
with no error logged. -/
theorem zero_goal_short_circuit (env : OrchEnv) (u : Nat) (store : ActStore)
    (hY : env.failYesterdayRead = none) (hG : env.failGoalsRead = none)
    (hU : yesterdayUnfinished store u env.yesterdayKey = []) :
    generateAndSendDailyPlan env u [] store =
      (store, [BotEvent.msg checkingMsg, BotEvent.msg noGoalsMsg]) := by
  simp only [generateAndSendDailyPlan, hY, hG]
  rw [if_pos ⟨rfl, by rw [hU]; rfl⟩]

/-- Witness for `zero_goal_short_circuit` on the empty store. -/
theorem zero_goal_short_circuit_witness :
    okEnv.failYesterdayRead = none ∧
    yesterdayUnfinished [] 1 okEnv.yesterdayKey = [] ∧
    generateAndSendDailyPlan okEnv 1 [] [] =
      ([], [BotEvent.msg checkingMsg, BotEvent.msg noGoalsMsg]) :=
  ⟨rfl, rfl, zero_goal_short_circuit okEnv 1 [] rfl rfl rfl⟩

/-- C2 as stated is false: in the zero-goal case the invocation does send
the "no active goals" message, but not as the only message — the progress
notice precedes it, so the event trace is not the single-message trace. -/
theorem zero_goal_message_counterexample :
    (generateAndSendDailyPlan okEnv 1 [] []).2 =
      [BotEvent.msg checkingMsg, BotEvent.msg noGoalsMsg] ∧
    (generateAndSendDailyPlan okEnv 1 [] []).2 ≠ [BotEvent.msg noGoalsMsg] ∧
    BotEvent.msg checkingMsg ≠ BotEvent.msg noGoalsMsg := by
  refine ⟨rfl, ?_, ?_⟩ <;> decide

/-- Event classifier: is this a console error log. -/
def isLogErr : BotEvent → Bool
  | BotEvent.logErr _ => true
  | _ => false

/-- Event classifier: is this a chat message to the user. -/
def isUserMsg : BotEvent → Bool
  | BotEvent.msg _ => true
  | _ => false

/-- C9: the scheduler loop completes one entry per registered user no
matter which per-user steps fail; an invocation either logs an error and
ends with the generic retry-later message as its last event, or logs
nothing; and on any logged failure the only user-visible messages are the
progress notice and the retry-later notice. -/
theorem orchestrator_failure_containment :
    (∀ (users : List (Nat × List GoalRow × OrchEnv)) (store : ActStore),
      (runDailyForAllUsers users store).2.length = users.length) ∧
    (∀ (env : OrchEnv) (u : Nat) (goals : List GoalRow) (store : ActStore),
      ((generateAndSendDailyPlan env u goals store).2.getLast? =
          some (BotEvent.msg snagMsg) ∧
        (generateAndSendDailyPlan env u goals store).2.any isLogErr = true) ∨
      (generateAndSendDailyPlan env u goals store).2.any isLogErr = false) ∧
    (∀ (env : OrchEnv) (u : Nat) (goals : List GoalRow) (store : ActStore),
      (generateAndSendDailyPlan env u goals store).2.any isLogErr = true →
      (generateAndSendDailyPlan env u goals store).2.filter isUserMsg =
        [BotEvent.msg checkingMsg, BotEvent.msg snagMsg]) := by
  refine ⟨fun users store => ?_, fun env u goals store => ?_, fun env u goals store => ?_⟩
  · induction users generalizing store with
    | nil => rfl
    | cons a rest ih =>
      obtain ⟨u, goals, env⟩ := a
      show ((runDailyForAllUsers rest
        (generateAndSendDailyPlan env u goals store).1).2.length) + 1 = rest.length + 1
      rw [ih]
  · rcases env with ⟨fY, fG, fGen, fW, fS, gen, yk, tk⟩
    cases fY with
    | some e => left; exact ⟨rfl, rfl⟩
    | none =>
      cases fG with
      | some e => left; exact ⟨rfl, rfl⟩
      | none =>
        by_cases hz : goals.length = 0 ∧
            (yesterdayUnfinished store u yk).length = 0
        · simp only [generateAndSendDailyPlan]
          rw [if_pos hz]
          right
          rfl
        · simp only [generateAndSendDailyPlan]
          rw [if_neg hz]
          cases fGen with
          | some e => left; exact ⟨rfl, rfl⟩
          | none =>
            cases fW with
            | some e => left; exact ⟨rfl, rfl⟩
            | none =>
              cases fS with
              | some e => left; exact ⟨rfl, rfl⟩
              | none => right; rfl
  · rcases env with ⟨fY, fG, fGen, fW, fS, gen, yk, tk⟩
    cases fY with
    | some e => intro _; rfl
    | none =>
      cases fG with
      | some e => intro _; rfl
      | none =>
        by_cases hz : goals.length = 0 ∧
            (yesterdayUnfinished store u yk).length = 0
        · simp only [generateAndSendDailyPlan]
          rw [if_pos hz]
          intro hc
          cases hc
        · simp only [generateAndSendDailyPlan]
          rw [if_neg hz]
          cases fGen with
          | some e => intro _; rfl
          | none =>
            cases fW with
            | some e => intro _; rfl
            | none =>
              cases fS with
              | some e => intro _; rfl
              | none =>
                intro hc
                cases hc

/-- Witness for `orchestrator_failure_containment`: a provider failure for
one user is logged, surfaced as the retry-later notice, and the next user
still gets processed (two trace entries for two users). -/
theorem orchestrator_failure_containment_witness :
    (generateAndSendDailyPlan
        { okEnv with failGenerate := some "quota" } 1 [("Ship v1", none)] []).2.any
      isLogErr = true ∧
    (generateAndSendDailyPlan
        { okEnv with failGenerate := some "quota" } 1 [("Ship v1", none)] []).2.filter
      isUserMsg = [BotEvent.msg checkingMsg, BotEvent.msg snagMsg] ∧
    (runDailyForAllUsers
        [(1, [("Ship v1", none)], { okEnv with failGenerate := some "quota" }),
         (2, [("Ship v2", none)], okEnv)] []).2.length = 2 :=
  ⟨rfl,
    orchestrator_failure_containment.2.2
      { okEnv with failGenerate := some "quota" } 1 [("Ship v1", none)] [] rfl,
    orchestrator_failure_containment.1
      [(1, [("Ship v1", none)], { okEnv with failGenerate := some "quota" }),
       (2, [("Ship v2", none)], okEnv)] []⟩

/-- The Lagos UTC offset in minutes (West Africa Time, UTC+1, no DST). -/
def lagosOffsetMin : Int := 60

/-- Instants are minutes since the epoch; the calendar day containing an
instant at a given UTC offset, as used by `toISOString` (offset 0) and by
the store's CURRENT_DATE (the store's configured offset). -/
def dayAtOffset (now offsetMin : Int) : Int :=
  Int.fdiv (now + offsetMin) 1440

/-- Model of the source's date round-trip
`new Date(new Date(now).toLocaleString(en-US, timeZone Africa/Lagos))`:
rendering the instant's Lagos wall-clock fields and re-parsing them in the
host's local offset yields the instant shifted by the difference of the two
offsets. -/
def lagosStringReparsed (now hostOffsetMin : Int) : Int :=
  now + lagosOffsetMin - hostOffsetMin

/-- The orchestrator's `yesterdayStr` key: subtract one calendar day from
the re-parsed date and take the UTC date of `toISOString`. -/
def yesterdayStrKey (now hostOffsetMin : Int) : Int :=
  dayAtOffset (lagosStringReparsed now hostOffsetMin - 1440) 0

/-- The key the upsert and the toggle lookup use: `CURRENT_DATE`, the
calendar date at the store's configured offset. -/
def currentDateKey (now storeOffsetMin : Int) : Int :=
  dayAtOffset now storeOffsetMin

/-- The Lagos calendar day of an instant — the fixed-timezone day boundary
the pipeline intends to anchor on. -/
def lagosDayKey (now : Int) : Int :=
  dayAtOffset now lagosOffsetMin

/-- C7 is violated by the code: at the instant 00:30 Lagos wall-clock time
(now = 2850 minutes after an epoch midnight UTC), the carry-over key
changes with the host's offset (UTC host vs UTC+10 host), the upsert and
toggle key changes with the store's offset (UTC store vs UTC+1 store), and
the upsert key on a UTC store differs from the Lagos calendar day — so
"yesterday" and "today" are not computed in one fixed timezone independent
of the host and store. -/
theorem day_keys_timezone_dependent :
    yesterdayStrKey 2850 0 ≠ yesterdayStrKey 2850 600 ∧
    currentDateKey 2850 0 ≠ currentDateKey 2850 60 ∧
    currentDateKey 2850 0 ≠ lagosDayKey 2850 ∧
    yesterdayStrKey 2850 0 = 1 ∧ yesterdayStrKey 2850 600 = 0 ∧
    currentDateKey 2850 0 = 1 ∧ currentDateKey 2850 60 = 2 ∧
    lagosDayKey 2850 = 2 := by
  refine ⟨?_, ?_, ?_, ?_, ?_, ?_, ?_, ?_⟩ <;> decide

/-- A row of the `goals` table: surrogate id, description, optional
deadline, priority. -/
structure GoalRec where
  id : Nat
  description : String
  deadline : Option String
  priority : Int
deriving Repr, DecidableEq

/-- Insertion into a sorted list under a Boolean order: the model of one
SQL ORDER BY comparison step. -/
def insertSorted (le : GoalRec → GoalRec → Bool) (g : GoalRec) :
    List GoalRec → List GoalRec
  | [] => [g]
  | h :: t => if le g h then g :: h :: t else h :: insertSorted le g t

/-- The result order of a SQL `ORDER BY` over the stored rows: insertion
sort under the given total order. -/
def sortGoals (le : GoalRec → GoalRec → Bool) (gs : List GoalRec) : List GoalRec :=
  gs.foldr (insertSorted le) []

/-- The listing order of `/mygoals`: `ORDER BY priority DESC, id ASC`. -/
def listingLe (a b : GoalRec) : Bool :=
  decide (b.priority < a.priority) ||
    (a.priority == b.priority && decide (a.id ≤ b.id))

/-- The order of the `/delete` handler's fetch: `ORDER BY id ASC` only. -/
def idLe (a b : GoalRec) : Bool :=
  decide (a.id ≤ b.id)

/-- The goal list as `/mygoals` presents it. -/
def mygoalsListing (gs : List GoalRec) : List GoalRec :=
  sortGoals listingLe gs

/-- The `/delete n` handler: fetch the user's goals ordered by id
ascending, validate `1 ≤ n ≤ count` (otherwise reply with a validation
message and delete nothing, modelled as `none`), and delete the row whose
id is that of entry `n - 1` of the id-ordered fetch.  Returns the remaining
rows and the deleted goal. -/
def deleteByNumber (gs : List GoalRec) (n : Nat) :
    Option (List GoalRec × GoalRec) :=
  let ordered := sortGoals idLe gs
  match ordered[n - 1]? with
  | some g =>
    if 1 ≤ n then some (gs.filter fun x => x.id != g.id, g) else none
  | none => none

/-- Goal A of the counterexample: created second (id 2) but listed first
(priority 5). -/
def goalA : GoalRec := GoalRec.mk 2 "A" none 5

/-- Goal B of the counterexample: created first (id 1), listed second
(priority 0). -/
def goalB : GoalRec := GoalRec.mk 1 "B" none 0

/-- C8 as stated is false: with stored goals listed by `/mygoals` as
[A, B] (priority descending), `/delete 2` resolves 2 against the
id-ascending order instead and removes A — the goal at listing position 1 —
not B. -/
theorem delete_by_number_counterexample :
    mygoalsListing [goalB, goalA] = [goalA, goalB] ∧
    deleteByNumber [goalB, goalA] 2 = some ([goalB], goalA) ∧
    goalA ≠ goalB := by
  refine ⟨?_, ?_, ?_⟩ <;> decide

/-- C8 (amended): `/delete n` resolves `n` against the creation (id
ascending) order, not the priority-descending listing order; when all of
the user's goals carry the same priority — as for every goal this bot
itself creates, since its inserts never set priority — the two orders
coincide, and deleting 2 from a listing [A, B, C] removes exactly B and
leaves A and C in their original relative order. -/
theorem delete_by_number_consistency (A B C : GoalRec) (p : Int)
    (hAB : A.id < B.id) (hBC : B.id < C.id)
    (hpA : A.priority = p) (hpB : B.priority = p) (hpC : C.priority = p) :
    mygoalsListing [A, B, C] = [A, B, C] ∧
    deleteByNumber [A, B, C] 2 = some ([A, C], B) ∧
    mygoalsListing [A, C] = [A, C] := by
  have hab : A.id ≤ B.id := Nat.le_of_lt hAB
  have hbc : B.id ≤ C.id := Nat.le_of_lt hBC
  have hac : A.id ≤ C.id := Nat.le_of_lt (Nat.lt_trans hAB hBC)
  have hlAB : listingLe A B = true := by
    unfold listingLe
    rw [hpA, hpB]
    simp [hab]
  have hlBC : listingLe B C = true := by
    unfold listingLe
    rw [hpB, hpC]
    simp [hbc]
  have hlAC : listingLe A C = true := by
    unfold listingLe
    rw [hpA, hpC]
    simp [hac]
  have hiAB : idLe A B = true := by
    unfold idLe
    simp [hab]
  have hiBC : idLe B C = true := by
    unfold idLe
    simp [hbc]
  have hiAC : idLe A C = true := by
    unfold idLe
    simp [hac]
  have hl2 : insertSorted listingLe B [C] = [B, C] := by
    show (if listingLe B C then B :: C :: [] else C :: insertSorted listingLe B []) = [B, C]
    rw [hlBC]
    rfl
  have hl3 : insertSorted listingLe A [B, C] = [A, B, C] := by
    show (if listingLe A B then A :: B :: [C] else B :: insertSorted listingLe A [C]) =
      [A, B, C]
    rw [hlAB]
    rfl
  have hsortl : sortGoals listingLe [A, B, C] = [A, B, C] := by
    show insertSorted listingLe A (insertSorted listingLe B (insertSorted listingLe C [])) =
      [A, B, C]
    rw [show insertSorted listingLe C [] = [C] from rfl, hl2, hl3]
  have hi2 : insertSorted idLe B [C] = [B, C] := by
    show (if idLe B C then B :: C :: [] else C :: insertSorted idLe B []) = [B, C]
    rw [hiBC]
    rfl
  have hi3 : insertSorted idLe A [B, C] = [A, B, C] := by
    show (if idLe A B then A :: B :: [C] else B :: insertSorted idLe A [C]) = [A, B, C]
    rw [hiAB]
    rfl
  have hsorti : sortGoals idLe [A, B, C] = [A, B, C] := by
    show insertSorted idLe A (insertSorted idLe B (insertSorted idLe C [])) = [A, B, C]
    rw [show insertSorted idLe C [] = [C] from rfl, hi2, hi3]
  have hane : (A.id != B.id) = true := by
    simp only [bne_iff_ne, ne_eq]
    exact Nat.ne_of_lt hAB
  have hcne : (C.id != B.id) = true := by
    simp only [bne_iff_ne, ne_eq]
    exact Ne.symm (Nat.ne_of_lt hBC)
  have hbeq : (B.id != B.id) = false := by
    simp
  refine ⟨hsortl, ?_, ?_⟩
  · show (match (sortGoals idLe [A, B, C])[2 - 1]? with
      | some g =>
        if 1 ≤ 2 then some (List.filter (fun x => x.id != g.id) [A, B, C], g) else none
      | none => none) = some ([A, C], B)
    rw [hsorti]
    show (if 1 ≤ 2 then
      some (List.filter (fun x => x.id != B.id) [A, B, C], B) else none) =
      some ([A, C], B)
    rw [if_pos (by decide)]
    rw [List.filter_cons, List.filter_cons, List.filter_cons]
    rw [hane, hcne, hbeq]
    rfl
  · show insertSorted listingLe A (insertSorted listingLe C []) = [A, C]
    show (if listingLe A C then A :: C :: [] else C :: insertSorted listingLe A []) = [A, C]
    rw [hlAC]
    rfl

/-- Witness for `delete_by_number_consistency`: three equal-priority goals
with increasing ids; deleting number 2 removes exactly the middle one. -/
theorem delete_by_number_consistency_witness :
    (GoalRec.mk 1 "A" none 0).id < (GoalRec.mk 2 "B" none 0).id ∧
    deleteByNumber
        [GoalRec.mk 1 "A" none 0, GoalRec.mk 2 "B" none 0, GoalRec.mk 3 "C" none 0] 2 =
      some ([GoalRec.mk 1 "A" none 0, GoalRec.mk 3 "C" none 0], GoalRec.mk 2 "B" none 0) :=
  ⟨by decide,
    (delete_by_number_consistency
      (GoalRec.mk 1 "A" none 0) (GoalRec.mk 2 "B" none 0) (GoalRec.mk 3 "C" none 0) 0
      (by decide) (by decide) rfl rfl rfl).2.1⟩

end GoalTracker
